import Mathlib

/-!
Verification of the router_monitor repository: a shallow embedding of its
core components (response parser, protocol gateway, interface assembler,
poll orchestrator, persistence engine, partition maintainer, utilization
calculator) together with theorems settling the specification claims.

Python strings are modelled through List Char; machine integers are Int
(Python integers are unbounded, so no wrap is needed); Python floats that
carry parsed decimal text are modelled as exact rationals (IEEE rounding
is elided and no claim depends on it); fallible Python code returns
Except over an exception kind.
-/

deriving instance DecidableEq for Except

namespace RouterMonitor

/-- Exception kinds of the Python exceptions that the embedded code can
raise or catch.  dbError stands for mysql.connector.Error. -/
inductive PyExc where
  | valueError
  | typeError
  | overflowError
  | attributeError
  | dbError
deriving DecidableEq, Repr

/-- Python whitespace test, ASCII part: space, tab, newline, carriage
return, vertical tab, form feed.  Unicode whitespace recognised by Python
str methods and by the re module is elided; no claim depends on it. -/
def pyIsWs (c : Char) : Bool :=
  c = ' ' || c = '\t' || c = '\n' || c = '\x0d' || c = '\x0b' || c = '\x0c'

/-- ASCII decimal digit test (the re pattern backslash-d and int(), with
Unicode digits elided). -/
def pyIsDigit (c : Char) : Bool :=
  '0' ≤ c && c ≤ '9'

/-- ASCII hex digit test, the character class 0-9A-Fa-f of the
Hex-STRING pattern in parse_snmp_value. -/
def pyIsHex (c : Char) : Bool :=
  pyIsDigit c || ('A' ≤ c && c ≤ 'F') || ('a' ≤ c && c ≤ 'f')

/-- str.strip with no argument: drop leading and trailing whitespace. -/
def stripChars (s : List Char) : List Char :=
  ((s.dropWhile pyIsWs).reverse.dropWhile pyIsWs).reverse

/-- str.strip on a String. -/
def pyStrip (s : String) : String :=
  String.mk (stripChars s.toList)

/-- Split a character list at every occurrence of the separator
character, keeping empty pieces, like str.split with a one-character
separator argument. -/
def splitOnChar (sep : Char) : List Char → List (List Char)
  | [] => [[]]
  | c :: rest =>
    let r := splitOnChar sep rest
    if c = sep then [] :: r
    else match r with
      | [] => [[c]]
      | piece :: more => (c :: piece) :: more

/-- str.split with no argument: split on whitespace runs, discarding
empty pieces. -/
def wsSplit : List Char → List (List Char)
  | [] => []
  | c :: rest =>
    if pyIsWs c then wsSplit rest
    else match wsSplit rest with
      | piece :: more =>
        match rest with
        | r :: _ => if pyIsWs r then [c] :: piece :: more else (c :: piece) :: more
        | [] => [[c]]
      | [] => [[c]]

/-- str.join with a separator, over character-list pieces. -/
def joinWith (sep : List Char) : List (List Char) → List Char
  | [] => []
  | [p] => p
  | p :: rest => p ++ sep ++ joinWith sep rest

/-- Substring test, the Python in operator on strings. -/
def containsSub (needle : List Char) : List Char → Bool
  | [] => needle.isPrefixOf []
  | c :: rest => needle.isPrefixOf (c :: rest) || containsSub needle rest

/-- Numeric value of an ASCII digit run. -/
def digitsToNat (ds : List Char) : Nat :=
  ds.foldl (fun acc c => 10 * acc + (c.toNat - '0'.toNat)) 0

/-- int() digit body: one or more ASCII digits with single underscores
allowed between digits (Python underscore grouping); returns the value
when the shape is accepted. -/
def intDigits : List Char → Option Nat
  | [] => none
  | c :: rest =>
    if pyIsDigit c then intDigitsGo (c.toNat - '0'.toNat) rest else none
where
  intDigitsGo (acc : Nat) : List Char → Option Nat
    | [] => some acc
    | '_' :: c :: rest =>
      if pyIsDigit c then intDigitsGo (10 * acc + (c.toNat - '0'.toNat)) rest else none
    | c :: rest =>
      if pyIsDigit c then intDigitsGo (10 * acc + (c.toNat - '0'.toNat)) rest else none

/-- int(str) semantics: optional surrounding whitespace, optional sign,
then digits with underscore grouping; none models ValueError. -/
def pyIntOfString (s : String) : Option Int :=
  match stripChars s.toList with
  | '+' :: rest => (intDigits rest).map (fun n => (n : Int))
  | '-' :: rest => (intDigits rest).map (fun n => -(n : Int))
  | rest => (intDigits rest).map (fun n => (n : Int))

/-- Typed values produced by the response parser: Python str, int and
float, with the float split into finite values (exact rationals), the
two infinities and nan. -/
inductive PyValue where
  | str (s : String)
  | int (n : Int)
  | float (q : ℚ)
  | floatInf (neg : Bool)
  | floatNan
deriving DecidableEq, Repr

/-- Lower-case an ASCII letter, for the case-insensitive inf and nan
spellings accepted by float(). -/
def asciiLower (c : Char) : Char :=
  if 'A' ≤ c && c ≤ 'Z' then Char.ofNat (c.toNat + 32) else c

/-- Mantissa digits with underscore grouping, returned as value and
count, for float() parsing. -/
def floatDigits : List Char → Option (Nat × Nat × List Char)
  | c :: rest =>
    if pyIsDigit c then some (floatDigitsGo (c.toNat - '0'.toNat) 1 rest) else none
  | [] => none
where
  floatDigitsGo (acc k : Nat) : List Char → Nat × Nat × List Char
    | '_' :: c :: rest =>
      if pyIsDigit c then floatDigitsGo (10 * acc + (c.toNat - '0'.toNat)) (k + 1) rest
      else (acc, k, '_' :: c :: rest)
    | c :: rest =>
      if pyIsDigit c then floatDigitsGo (10 * acc + (c.toNat - '0'.toNat)) (k + 1) rest
      else (acc, k, c :: rest)
    | [] => (acc, k, [])

/-- Exponent suffix of a float literal: e or E, optional sign, digits.
Returns the signed exponent and requires the rest to be empty. -/
def floatExp : List Char → Option Int
  | [] => some 0
  | e :: rest =>
    if e = 'e' || e = 'E' then
      match rest with
      | '+' :: ds => (intDigits ds).map (fun n => (n : Int))
      | '-' :: ds => (intDigits ds).map (fun n => -(n : Int))
      | ds => (intDigits ds).map (fun n => (n : Int))
    else none

/-- Exact rational value of a decimal literal with integer part ip,
fractional part frac over k digits, and decimal exponent e; built with
Rat.divInt so that the kernel can evaluate it. -/
def decimalValue (ip frac k : Nat) (e : Int) : ℚ :=
  let num : Int := (ip * 10 ^ k + frac : Nat)
  if 0 ≤ e then Rat.divInt (num * 10 ^ e.toNat) (10 ^ k)
  else Rat.divInt num ((10 : Int) ^ k * 10 ^ (-e).toNat)

/-- Finite float literal body after the sign: intpart [. fracpart]
[exponent] or . fracpart [exponent], valued exactly as a rational. -/
def floatBody (cs : List Char) : Option ℚ :=
  match cs with
  | '.' :: rest =>
    match floatDigits rest with
    | some (frac, k, rest2) =>
      (floatExp rest2).map (fun e => decimalValue 0 frac k e)
    | none => none
  | _ =>
    match floatDigits cs with
    | some (ip, _, rest1) =>
      match rest1 with
      | '.' :: rest2 =>
        match floatDigits rest2 with
        | some (frac, k, rest3) =>
          (floatExp rest3).map (fun e => decimalValue ip frac k e)
        | none =>
          (floatExp rest2).map (fun e => decimalValue ip 0 0 e)
      | _ => (floatExp rest1).map (fun e => decimalValue ip 0 0 e)
    | none => none

/-- float(str) semantics: optional whitespace and sign, then a finite
decimal literal or one of inf, infinity, nan (case-insensitive); none
models ValueError. -/
def pyFloatOfString (s : String) : Option PyValue :=
  let core := fun (neg : Bool) (cs : List Char) =>
    let low := cs.map asciiLower
    if low = "inf".toList || low = "infinity".toList then some (PyValue.floatInf neg)
    else if low = "nan".toList then some PyValue.floatNan
    else (floatBody cs).map (fun q => PyValue.float (if neg then -q else q))
  match stripChars s.toList with
  | '+' :: rest => core false rest
  | '-' :: rest => core true rest
  | rest => core false rest

/-- re.search for a literal tag followed by backslash-s-star and a
captured digit run, the INTEGER and Counter32 or Counter64 or Gauge32
patterns of parse_snmp_value: scan positions left to right; at a match
of one of the tags, skip the whitespace run and demand at least one
digit (backtracking into the whitespace cannot help, since whitespace is
not a digit). -/
def searchTagInt (tags : List (List Char)) : List Char → Option Nat
  | [] => none
  | c :: rest =>
    match tags.find? (fun t => t.isPrefixOf (c :: rest)) with
    | some tag =>
      let after := (c :: rest).drop tag.length
      let body := after.dropWhile pyIsWs
      let ds := body.takeWhile pyIsDigit
      if ds.isEmpty then searchTagInt tags rest else some (digitsToNat ds)
    | none => searchTagInt tags rest

/-- re.search for the Timeticks pattern: tag, whitespace run, a
parenthesised digit run.  The greedy digit run must be followed by the
closing parenthesis, else the position is abandoned. -/
def searchTimeticks (tag : List Char) : List Char → Option Nat
  | [] => none
  | c :: rest =>
    if tag.isPrefixOf (c :: rest) then
      let after := (c :: rest).drop tag.length
      match after.dropWhile pyIsWs with
      | '(' :: body =>
        let ds := body.takeWhile pyIsDigit
        if ds.isEmpty then searchTimeticks tag rest
        else match body.drop ds.length with
          | ')' :: _ => some (digitsToNat ds)
          | _ => searchTimeticks tag rest
      | _ => searchTimeticks tag rest
    else searchTimeticks tag rest

/-- re.search for the Hex-STRING pattern: tag, whitespace run, then a
captured run of the class hex-or-whitespace.  With a greedy whitespace
star in front of a class that also contains whitespace, the capture is
the class run minus its whitespace prefix when that remainder is
non-empty, and otherwise (class run entirely whitespace) a single
whitespace character obtained by backtracking one step. -/
def searchHexCapture (tag : List Char) : List Char → Option (List Char)
  | [] => none
  | c :: rest =>
    if tag.isPrefixOf (c :: rest) then
      let after := (c :: rest).drop tag.length
      let run := after.takeWhile (fun c => pyIsHex c || pyIsWs c)
      if run.isEmpty then searchHexCapture tag rest
      else
        let cap := run.dropWhile pyIsWs
        if cap.isEmpty then some [run.getLastD ' '] else some cap
    else searchHexCapture tag rest

/-- re.search for the IpAddress pattern: tag, whitespace run, four
greedy digit runs joined by dots; each of the first three runs must be
followed by a literal dot. -/
def searchIpQuad (tag : List Char) : List Char → Option (List Char)
  | [] => none
  | c :: rest =>
    (if tag.isPrefixOf (c :: rest) then
      let after := (c :: rest).drop tag.length
      quad (after.dropWhile pyIsWs)
    else none).orElse (fun _ => searchIpQuad tag rest)
where
  run1 (s : List Char) : Option (List Char × List Char) :=
    let ds := s.takeWhile pyIsDigit
    if ds.isEmpty then none else some (ds, s.drop ds.length)
  dotRun (s : List Char) : Option (List Char × List Char) :=
    match s with
    | '.' :: more => (run1 more).map (fun p => ('.' :: p.1, p.2))
    | _ => none
  quad (s : List Char) : Option (List Char) := do
    let (d1, r1) ← run1 s
    let (d2, r2) ← dotRun r1
    let (d3, r3) ← dotRun r2
    let (d4, _) ← dotRun r3
    pure (d1 ++ d2 ++ d3 ++ d4)

/-- parse_snmp_value from snmp/parsers.py: the response parser for one
raw value token, branch for branch in source order. -/
def parse_snmp_value (value_str : String) : PyValue :=
  let cs := value_str.toList
  if value_str = "" || value_str = "STRING:" then .str ""
  else if value_str.toList.headD ' ' = '"' && value_str.toList.getLastD ' ' = '"' then
    .str (String.mk (cs.drop 1).dropLast)
  else match searchTagInt ["INTEGER:".toList] cs with
  | some n => .int n
  | none =>
    match searchTagInt ["Counter32:".toList, "Counter64:".toList, "Gauge32:".toList] cs with
    | some n => .int n
    | none =>
      match searchTimeticks "Timeticks:".toList cs with
      | some n => .int n
      | none =>
        match searchHexCapture "Hex-STRING:".toList cs with
        | some cap =>
          let hexValues := wsSplit (stripChars cap)
          if hexValues.length = 6 then .str (String.mk (joinWith [':'] hexValues))
          else .str (String.mk (stripChars cap))
        | none =>
          match searchIpQuad "IpAddress:".toList cs with
          | some quad => .str (String.mk quad)
          | none =>
            match pyIntOfString value_str with
            | some n => .int n
            | none =>
              match pyFloatOfString value_str with
              | some v => v
              | none => .str value_str

/-- startswith test on the character-list representation. -/
def startsWithStr (s pre : String) : Bool :=
  pre.toList.isPrefixOf s.toList

/-- Split at the first occurrence of the separator, str.split(sep, 1);
none when the separator is absent (the len(parts) != 2 case). -/
def splitFirst (sep : Char) : List Char → Option (List Char × List Char)
  | [] => none
  | c :: rest =>
    if c = sep then some ([], rest)
    else (splitFirst sep rest).map (fun p => (c :: p.1, p.2))

/-- Outcome of running the external snmpget or snmpwalk command: either
some exception during execution, or a completed process with return
code and standard output text. -/
inductive TransportResult where
  | exc
  | ok (returncode : Int) (stdout : String)

/-- The backtracking semantics of the value-extraction pattern of
snmp_get, an equals sign, greedy whitespace, then a captured run of
non-newline characters reaching the end of the string: after a greedy
whitespace run the remainder must be non-empty and newline-free;
when the remainder is empty, backtracking one step captures the last
whitespace character provided it is not a newline. -/
def matchEqTail (rest : List Char) : Option (List Char) :=
  let p := rest.takeWhile pyIsWs
  let r := rest.drop p.length
  if r.isEmpty then
    if rest.isEmpty then none
    else if rest.getLastD ' ' = '\n' then none
    else some [rest.getLastD ' ']
  else if r.contains '\n' then none
  else some r

/-- re.search for the value-extraction pattern of snmp_get, scanning
equals signs left to right. -/
def searchAfterEq : List Char → Option (List Char)
  | [] => none
  | '=' :: rest => (matchEqTail rest).orElse (fun _ => searchAfterEq rest)
  | _ :: rest => searchAfterEq rest

/-- snmp_get from snmp/client.py, applied to the transport outcome of
the snmpget command: None on an exception, on a non-zero return code,
or on a no-such-object response; otherwise the parsed extracted value,
or the raw output text when the extraction pattern does not match. -/
def snmp_get (t : TransportResult) : Option PyValue :=
  match t with
  | .exc => none
  | .ok returncode stdout =>
    if returncode ≠ 0 then none
    else
      let output := stripChars stdout.toList
      if containsSub "No Such Object".toList output
          || containsSub "No Such Instance".toList output then none
      else
        match searchAfterEq output with
        | some cap => some (parse_snmp_value (pyStrip (String.mk cap)))
        | none => some (.str (String.mk output))

/-- Dictionary write d[k] = v on an association list that keeps first
insertion position, as a Python dict does. -/
def upsert (k : String) (v : PyValue) : List (String × PyValue) → List (String × PyValue)
  | [] => [(k, v)]
  | (k2, v2) :: rest => if k2 = k then (k2, v) :: rest else (k2, v2) :: upsert k v rest

/-- Dictionary lookup returning the value bound to a key. -/
def lookupVal (m : List (String × PyValue)) (k : String) : Option PyValue :=
  (m.find? (fun p => p.1 == k)).map Prod.snd

/-- parse_snmp_walk_response from snmp/parsers.py: split the output in
lines, skip blank lines and lines without an equals sign, key each
parsed value by the last dotted path segment of the OID part. -/
def parse_snmp_walk_response (output : String) : List (String × PyValue) :=
  (splitOnChar '\n' output.toList).foldl
    (fun result line =>
      if (stripChars line).isEmpty then result
      else
        match splitFirst '=' line with
        | none => result
        | some parts =>
          let full_oid := stripChars parts.1
          let value_part := stripChars parts.2
          let index := (splitOnChar '.' full_oid).getLastD []
          upsert (String.mk index) (parse_snmp_value (String.mk value_part)) result)
    []

/-- snmp_walk from snmp/client.py applied to the transport outcome of
the snmpwalk command: empty mapping on an exception or a non-zero
return code, else the parsed table. -/
def snmp_walk (t : TransportResult) : List (String × PyValue) :=
  match t with
  | .exc => []
  | .ok returncode stdout =>
    if returncode ≠ 0 then [] else parse_snmp_walk_response (pyStrip stdout)

/-- OID_CONSTANTS from snmp/constants.py, in source order. -/
def OID_CONSTANTS : List (String × String) := [
  ("sysName", "1.3.6.1.2.1.1.5.0"),
  ("sysDescr", "1.3.6.1.2.1.1.1.0"),
  ("sysUpTime", "1.3.6.1.2.1.1.3.0"),
  ("sysLocation", "1.3.6.1.2.1.1.6.0"),
  ("sysContact", "1.3.6.1.2.1.1.4.0"),
  ("sysObjectID", "1.3.6.1.2.1.1.2.0"),
  ("ipAddress", "1.3.6.1.2.1.4.20.1.1"),
  ("ipAdEntIfIndex", "1.3.6.1.2.1.4.20.1.2"),
  ("ifIndex", "1.3.6.1.2.1.2.2.1.1"),
  ("ifDescr", "1.3.6.1.2.1.2.2.1.2"),
  ("ifName", "1.3.6.1.2.1.31.1.1.1.1"),
  ("ifType", "1.3.6.1.2.1.2.2.1.3"),
  ("ifMTU", "1.3.6.1.2.1.2.2.1.4"),
  ("ifSpeed", "1.3.6.1.2.1.2.2.1.5"),
  ("ifPhysAddress", "1.3.6.1.2.1.2.2.1.6"),
  ("ifAdminStatus", "1.3.6.1.2.1.2.2.1.7"),
  ("ifOperStatus", "1.3.6.1.2.1.2.2.1.8"),
  ("ifInOctets", "1.3.6.1.2.1.2.2.1.10"),
  ("ifOutOctets", "1.3.6.1.2.1.2.2.1.16"),
  ("ifHCInOctets", "1.3.6.1.2.1.31.1.1.1.6"),
  ("ifHCOutOctets", "1.3.6.1.2.1.31.1.1.1.10"),
  ("ifHighSpeed", "1.3.6.1.2.1.31.1.1.1.15"),
  ("ifAlias", "1.3.6.1.2.1.31.1.1.1.18")]

/-- Lookup OID_CONSTANTS[name]. -/
def oid_of (name : String) : String :=
  ((OID_CONSTANTS.find? (fun p => p.1 == name)).map Prod.snd).getD ""

/-- The sentinel string bound to a system attribute whose query returned
no value. -/
def errorSentinel : String := "Error retrieving value"

/-- get_device_info from snmp/client.py: the per-device identity fetch,
with the gateway abstracted as an oracle from OID to the optional value
snmp_get returns.  Dictionary values are Option PyValue so that a
Python None binding would be representable; the code never stores one. -/
def get_device_info (snmpGetO : String → Option PyValue) (router_ip : String) :
    List (String × Option PyValue) :=
  (OID_CONSTANTS.filter (fun p => startsWithStr p.1 "sys")).foldl
    (fun device_info p =>
      device_info ++ [(p.1, some ((snmpGetO p.2).getD (.str errorSentinel)))])
    [("ip_address", some (.str router_ip))]

/-- The sys-prefixed subset of OID_CONSTANTS that get_device_info
queries, in source order. -/
def sys_attr_oids : List (String × String) :=
  OID_CONSTANTS.filter (fun p => startsWithStr p.1 "sys")

/-- int() applied to a parsed SNMP value: identity on int, truncation
toward zero on a finite float, OverflowError on an infinite float,
ValueError on nan and on a string that is not an integer literal. -/
def int_of_pyvalue : PyValue → Except PyExc Int
  | .int n => .ok n
  | .float q => .ok (Int.tdiv q.num q.den)
  | .floatInf _ => .error .overflowError
  | .floatNan => .error .valueError
  | .str s =>
    match pyIntOfString s with
    | some n => .ok n
    | none => .error .valueError

/-- str() of a parsed SNMP value.  The shortest-round-trip repr of a
finite Python float is elided and rendered as num/den; no claim
inspects that rendering. -/
def pyStr : PyValue → String
  | .str s => s
  | .int n => toString n
  | .float q => toString q.num ++ "/" ++ toString q.den
  | .floatInf neg => if neg then "-inf" else "inf"
  | .floatNan => "nan"

/-- The monitored-indices loop of get_monitored_interfaces: int() each
type value, keep the index when the value is in the allow-list, skip the
entry on ValueError or TypeError, propagate any other exception.  The
allow-list INTERFACE_TYPES_TO_MONITOR is a parameter, see
get_monitored_interfaces. -/
def monitored_indices_fold (allowName : Int → Option String) :
    List (String × PyValue) → Except PyExc (List String)
  | [] => .ok []
  | (index, v) :: rest =>
    match int_of_pyvalue v with
    | .ok t =>
      (monitored_indices_fold allowName rest).map
        (fun tail => if (allowName t).isSome then index :: tail else tail)
    | .error .valueError => monitored_indices_fold allowName rest
    | .error .typeError => monitored_indices_fold allowName rest
    | .error e => .error e

/-- One record of the interface assembler: a dynamic dictionary from
attribute name to an optional value, in insertion order. -/
abbrev IfaceRec := List (String × Option PyValue)

/-- The ifType display label built in the dict comprehension of
get_monitored_interfaces: the raw value followed by the allow-list name
or Unknown; int() runs again here, so its exceptions propagate. -/
def iface_type_label (allowName : Int → Option String) (v : PyValue) : Except PyExc String :=
  (int_of_pyvalue v).map (fun t => pyStr v ++ " (" ++ ((allowName t).getD "Unknown") ++ ")")

/-- The initial record comprehension of get_monitored_interfaces. -/
def build_initial_recs (allowName : Int → Option String)
    (if_types : List (String × PyValue)) :
    List String → Except PyExc (List (String × IfaceRec))
  | [] => .ok []
  | index :: rest => do
    let v := (lookupVal if_types index).getD (.str "")
    let label ← iface_type_label allowName v
    let tail ← build_initial_recs allowName if_types rest
    .ok ((index, [("ifIndex", some (.str index)), ("ifType", some (.str label))]) :: tail)

/-- The attribute OIDs walked by the attribute loop of
get_monitored_interfaces: everything but ifIndex, ifType and the
sys-prefixed names, in source order. -/
def attr_oids : List (String × String) :=
  OID_CONSTANTS.filter (fun p =>
    !(p.1 == "ifIndex" || p.1 == "ifType" || startsWithStr p.1 "sys"))

/-- One pass of the attribute loop: bind the walked value for each
monitored index, or None when the index is absent from the walk. -/
def add_attr (name : String) (values : List (String × PyValue)) :
    List (String × IfaceRec) → List (String × IfaceRec) :=
  fun recs => recs.map (fun r => (r.1, r.2 ++ [(name, lookupVal values r.1)]))

/-- setdefault(k, []).append(v) on an association list. -/
def setdefault_append (k v : String) :
    List (String × List String) → List (String × List String)
  | [] => [(k, [v])]
  | (k2, vs) :: rest =>
    if k2 = k then (k2, vs ++ [v]) :: rest
    else (k2, vs) :: setdefault_append k v rest

/-- Lookup in the index-to-addresses mapping. -/
def lookupStrList (m : List (String × List String)) (k : String) : Option (List String) :=
  (m.find? (fun p => p.1 == k)).map Prod.snd

/-- get_ip_to_interface_mapping from snmp/client.py, with the walk
oracle abstracting snmp_walk against the device; returns the OIDs
walked and the interface-index-to-addresses mapping. -/
def get_ip_to_interface_mapping (walkO : String → List (String × PyValue)) :
    List String × List (String × List String) :=
  let ip_addresses := walkO (oid_of "ipAddress")
  let ip_to_if_indices := walkO (oid_of "ipAdEntIfIndex")
  ([oid_of "ipAddress", oid_of "ipAdEntIfIndex"],
    ip_addresses.foldl
      (fun mapping p =>
        match lookupVal ip_to_if_indices p.1 with
        | some w => setdefault_append (pyStr w) (pyStr p.2) mapping
        | none => mapping)
      [])

/-- join of an address list with a comma and a space. -/
def joinCommaSpace (xs : List String) : String :=
  String.mk (joinWith (", ".toList) (xs.map String.toList))

/-- get_monitored_interfaces from snmp/client.py: the interface
assembler.  The walk oracle abstracts snmp_walk against the device.
Modelled from the spec: the allow-list INTERFACE_TYPES_TO_MONITOR is
declared in models/interface, a module absent from the sources at hand
that the spec describes only as the monitored-type allow-list; it is
therefore a parameter mapping a type code to its name when monitored.
The first component of the result is the list of OIDs walked, in order;
the second is the returned mapping, or the propagated exception. -/
def get_monitored_interfaces (walkO : String → List (String × PyValue))
    (allowName : Int → Option String) :
    List String × Except PyExc (List (String × IfaceRec)) :=
  let if_types := walkO (oid_of "ifType")
  let trace0 := [oid_of "ifType"]
  if if_types.isEmpty then (trace0, .ok [])
  else
    match monitored_indices_fold allowName if_types with
    | .error e => (trace0, .error e)
    | .ok monitored_indices =>
      if monitored_indices.isEmpty then (trace0, .ok [])
      else
        match build_initial_recs allowName if_types monitored_indices with
        | .error e => (trace0, .error e)
        | .ok recs0 =>
          let step := attr_oids.foldl
            (fun (st : List String × List (String × IfaceRec)) p =>
              let values := walkO p.2
              (st.1 ++ [p.2], add_attr p.1 values st.2))
            (trace0, recs0)
          let ipm := get_ip_to_interface_mapping walkO
          let recs2 := step.2.map (fun r =>
            (r.1, r.2 ++ [("ipAddresses",
              some (.str (joinCommaSpace ((lookupStrList ipm.2 r.1).getD []))))]))
          (step.1 ++ ipm.1, .ok recs2)

/-- process_routers from main.py: the poll orchestrator.  Modelled from
the spec: process_router, the device poller imported from models/router,
is absent from the sources at hand; per the spec it polls one device
end-to-end and returns success or failure, so it is a boolean oracle
here.  The cooperative scheduler completes every task exactly once;
each completion either increments the success counter or appends the
address to the failure list, so the pair below is the state after all
tasks have completed.  The source returns the pair
(successful_count, len(failed_routers)); the failure list itself is kept
here and its length is that second component.  pollStep is the body of
process_router_with_semaphore: one task completion. -/
def pollStep (poll : String → Bool) (st : Nat × List String) (router_ip : String) :
    Nat × List String :=
  if poll router_ip then (st.1 + 1, st.2) else (st.1, st.2 ++ [router_ip])

/-- The orchestrator loop of process_routers: fold the completion of
every device task over the shared result state. -/
def process_routers (poll : String → Bool) (router_ips : List String) :
    Nat × List String :=
  router_ips.foldl (pollStep poll) (0, [])

/-- Strict decimal octet of a dotted-quad address: non-empty ASCII
digits, no leading zero except 0 itself, value at most 255. -/
def ipv4OctetOk (cs : List Char) : Bool :=
  !cs.isEmpty && cs.all pyIsDigit && cs.length ≤ 3
    && (cs = ['0'] || cs.headD ' ' ≠ '0')
    && digitsToNat cs ≤ 255

/-- Modelled from the spec: address-syntax validation in read_router_ips
is the stdlib call ipaddress.ip_address(line) followed by str(ip), and
the stdlib is outside the sources at hand.  The device list holds IPv4
addresses; ip_address accepts exactly the canonical dotted-quad text for
IPv4 (four strict octets), and str returns that same text, so the model
accepts or rejects the line unchanged. -/
def ip_address_ipv4 (s : String) : Option String :=
  match splitOnChar '.' s.toList with
  | [a, b, c, d] =>
    if ipv4OctetOk a && ipv4OctetOk b && ipv4OctetOk c && ipv4OctetOk d then some s else none
  | _ => none

/-- The comment-stripping and whitespace-stripping of one device-list
line: text before the first hash, stripped. -/
def cleanLine (line : String) : String :=
  String.mk (stripChars (line.toList.takeWhile (fun c => c ≠ '#')))

/-- The per-line body of the read_router_ips loop: skip a line that is
blank after cleaning, append the validated address, skip an invalid
address with a warning. -/
def readStep (router_ips : List String) (rawLine : String) : List String :=
  let line := cleanLine rawLine
  if line = "" then router_ips
  else
    match ip_address_ipv4 line with
    | some ip => router_ips ++ [ip]
    | none => router_ips

/-- read_router_ips from main.py, over the lines of the device-list
file. -/
def read_router_ips (lines : List String) : List String :=
  lines.foldl readStep []

/-- One element of the interfaces_data list handed to
save_interface_stats_batch: the dynamic per-interface dictionary, with
the fields the batch writer reads.  Counter and status fields hold the
integer values the assembler collected; none is a missing key. -/
structure StatsInput where
  ifIndex : Option String
  ifAdminStatus : Option Int
  ifOperStatus : Option Int
  ifInOctets : Option Int
  ifOutOctets : Option Int
  ifHCInOctets : Option Int
  ifHCOutOctets : Option Int
deriving DecidableEq, Repr

/-- One row of the interface_stats batch insert. -/
structure StatsRow where
  interface_id : Int
  timestamp : String
  ifAdminStatus : Int
  ifOperStatus : Int
  ifInOctets : Int
  ifOutOctets : Int
  ifHCInOctets : Int
  ifHCOutOctets : Int
deriving DecidableEq, Repr

/-- int(d.get(key, 0) or 0) for an integer-valued field: 0 when the key
is missing, otherwise the value (or-zero maps 0 to 0). -/
def int_or_zero (v : Option Int) : Int := v.getD 0

/-- execute_with_retry from db/connection.py, with the store abstracted
as an oracle telling whether the attempt numbered by the current
retry_count raises a transient mysql Error.  The result carries the
success flag and the list of backoff delays slept, each
0.5 * 2 ** retry_count seconds with retry_count already incremented;
exhausting max_retries re-raises the store error.  connection.py binds
the real time module, so the sleep there works. -/
def execute_with_retry_go (attemptFails : Nat → Bool) (max_retries : Nat) :
    Nat → Nat → List ℚ → Except PyExc (Bool × List ℚ)
  | _, 0, sleeps => .ok (false, sleeps)
  | retry_count, fuel + 1, sleeps =>
    if retry_count < max_retries then
      if attemptFails retry_count then
        let retry_count2 := retry_count + 1
        let backoff : ℚ := Rat.divInt (2 ^ retry_count2) 2
        if max_retries ≤ retry_count2 then .error .dbError
        else execute_with_retry_go attemptFails max_retries retry_count2 fuel (sleeps ++ [backoff])
      else .ok (true, sleeps)
    else .ok (false, sleeps)

/-- execute_with_retry with its default ceiling of 3 attempts. -/
def execute_with_retry (attemptFails : Nat → Bool) : Except PyExc (Bool × List ℚ) :=
  execute_with_retry_go attemptFails 3 0 3 []

/-- In db/interface_dao.py the line from datetime import datetime, time
shadows the time module, so the time.sleep call in the batch retry loop
is an attribute lookup on the datetime.time class, which has no sleep
attribute: the call raises AttributeError instead of sleeping. -/
def time_sleep_shadowed (_backoff : ℚ) : Except PyExc Unit :=
  .error .attributeError

/-- The executemany retry loop of save_interface_stats_batch: attempt
the batch insert, and on a transient store error increment retry_count,
re-raise at the ceiling, else back off through the shadowed time.sleep
and try again.  The oracle tells which attempts raise a store error;
the result carries the success flag and the rows committed. -/
def batch_insert_loop (insertFails : Nat → Bool) (stats_values : List StatsRow) :
    Nat → Nat → Except PyExc (Bool × List StatsRow)
  | _, 0 => .ok (false, [])
  | retry_count, fuel + 1 =>
    if retry_count < 3 then
      if insertFails retry_count then
        let retry_count2 := retry_count + 1
        if 3 ≤ retry_count2 then .error .dbError
        else
          match time_sleep_shadowed (Rat.divInt (2 ^ retry_count2) 2) with
          | .error e => .error e
          | .ok _ => batch_insert_loop insertFails stats_values retry_count2 fuel
      else .ok (true, stats_values)
    else .ok (false, [])

/-- save_interface_stats_batch from db/interface_dao.py.  interface_map
is the index-to-storage-id mapping get_interface_id_map resolved for the
router; insertFails abstracts the store; the result is the returned
value or the propagated exception, paired with the committed rows.
A store error that reaches the outer handler yields a False return;
the AttributeError from the shadowed time module is not a store error
and propagates. -/
def save_interface_stats_batch (interface_map : List (String × Int))
    (interfaces_data : List StatsInput) (insertFails : Nat → Bool)
    (current_time : String) : Except PyExc Bool × List StatsRow :=
  if interface_map.isEmpty then (.ok false, [])
  else
    let stats_values := interfaces_data.filterMap (fun interface =>
      match interface.ifIndex with
      | none => none
      | some if_index =>
        match (interface_map.find? (fun p => p.1 == if_index)).map Prod.snd with
        | none => none
        | some interface_id => some
            { interface_id := interface_id
              timestamp := current_time
              ifAdminStatus := int_or_zero interface.ifAdminStatus
              ifOperStatus := int_or_zero interface.ifOperStatus
              ifInOctets := int_or_zero interface.ifInOctets
              ifOutOctets := int_or_zero interface.ifOutOctets
              ifHCInOctets := int_or_zero interface.ifHCInOctets
              ifHCOutOctets := int_or_zero interface.ifHCOutOctets })
    if stats_values.isEmpty then (.ok false, [])
    else
      match batch_insert_loop insertFails stats_values 0 3 with
      | .ok (success, rows) => (.ok success, rows)
      | .error .dbError => (.ok false, [])
      | .error e => (.error e, [])

/-- One row of interface_stats as the utilization calculator reads it.
Timestamps are modelled in whole seconds; the sub-second part of the
datetime difference plays no role in any claim. -/
structure StatSample where
  timestamp : Int
  ifAdminStatus : Int
  ifOperStatus : Int
  ifInOctets : Int
  ifOutOctets : Int
  ifHCInOctets : Int
  ifHCOutOctets : Int
deriving DecidableEq, Repr

/-- The inbound byte delta of one adjacent sample pair before reset
handling: the wide counters when both are non-zero, else the standard
counters. -/
def rawDeltaIn (prev curr : StatSample) : Int :=
  if curr.ifHCInOctets ≠ 0 ∧ prev.ifHCInOctets ≠ 0 then
    curr.ifHCInOctets - prev.ifHCInOctets
  else curr.ifInOctets - prev.ifInOctets

/-- The outbound byte delta before reset handling. -/
def rawDeltaOut (prev curr : StatSample) : Int :=
  if curr.ifHCOutOctets ≠ 0 ∧ prev.ifHCOutOctets ≠ 0 then
    curr.ifHCOutOctets - prev.ifHCOutOctets
  else curr.ifOutOctets - prev.ifOutOctets

/-- Counter-reset handling for the inbound delta: a negative delta is
replaced by the current raw counter, wide when non-zero else standard. -/
def usedDeltaIn (prev curr : StatSample) : Int :=
  if rawDeltaIn prev curr < 0 then
    (if curr.ifHCInOctets ≠ 0 then curr.ifHCInOctets else curr.ifInOctets)
  else rawDeltaIn prev curr

/-- Counter-reset handling for the outbound delta. -/
def usedDeltaOut (prev curr : StatSample) : Int :=
  if rawDeltaOut prev curr < 0 then
    (if curr.ifHCOutOctets ≠ 0 then curr.ifHCOutOctets else curr.ifOutOctets)
  else rawDeltaOut prev curr

/-- One derived utilization record.  The float arithmetic of the source
is modelled as exact rational arithmetic. -/
structure UtilRecord where
  timestamp : Int
  in_bps : ℚ
  out_bps : ℚ
  in_utilization : ℚ
  out_utilization : ℚ
deriving DecidableEq, Repr

/-- The adjacent-pair loop of calculate_interface_utilization: skip a
pair with non-positive elapsed time, convert the reset-handled deltas to
bits per second, and derive the two percentages against speed_bps.
bps / speed_bps * 100 is written through Rat.divInt so the kernel can
evaluate it; the value is the same rational. -/
def util_pairs (speed_bps : Int) : List StatSample → List UtilRecord
  | prev :: curr :: rest =>
    (let time_diff := curr.timestamp - prev.timestamp
     if time_diff ≤ 0 then []
     else
       let in_bps := Rat.divInt (usedDeltaIn prev curr * 8) time_diff
       let out_bps := Rat.divInt (usedDeltaOut prev curr * 8) time_diff
       [{ timestamp := curr.timestamp
          in_bps := in_bps
          out_bps := out_bps
          in_utilization :=
            if 0 < speed_bps then Rat.divInt (in_bps.num * 100) (in_bps.den * speed_bps) else 0
          out_utilization :=
            if 0 < speed_bps then Rat.divInt (out_bps.num * 100) (out_bps.den * speed_bps) else 0 }])
      ++ util_pairs speed_bps (curr :: rest)
  | _ => []

/-- calculate_interface_utilization from db/interface_dao.py, given the
speed fields of the interface row and its ordered samples: prefer
ifHighSpeed, fall back to ifSpeed, refuse a zero speed and fewer than
two samples, else run the pair loop with the speed scaled from Mbps to
bps. -/
def calculate_interface_utilization (ifHighSpeed ifSpeed : Int)
    (stats : List StatSample) : List UtilRecord :=
  let interface_speed := if ifHighSpeed = 0 then ifSpeed else ifHighSpeed
  if interface_speed = 0 then []
  else if stats.length < 2 then []
  else util_pairs (interface_speed * 1000000) stats

/-- A dated partition of the interface_stats table.  The name
p_YYYYMMDD is the strftime image of the start date and that image is
injective, so the name is modelled by the start day; the catalog column
PARTITION_DESCRIPTION stores TO_DAYS of the end date, modelled by the
end day. -/
structure Partition where
  startDay : Int
  endDay : Int
deriving DecidableEq, Repr

/-- The existence check against information_schema.partitions that
precedes every partition creation. -/
def partition_exists (st : List Partition) (s : Int) : Bool :=
  st.any (fun p => p.startDay == s)

/-- The creation loop of create_time_partitions: for each of k windows
starting at index i, add the interval-day partition starting at
current_date + i * interval_days unless a partition of that name
exists. -/
def ctpGo (current_date interval_days : Int) : Nat → Nat → List Partition → List Partition
  | _, 0, st => st
  | i, k + 1, st =>
    let partition_start := current_date + i * interval_days
    let partition_end := current_date + (i + 1) * interval_days
    let st2 :=
      if partition_exists st partition_start then st
      else st ++ [⟨partition_start, partition_end⟩]
    ctpGo current_date interval_days (i + 1) k st2

/-- create_time_partitions from db/schema.py with its default of six
partitions. -/
def create_time_partitions (current_date interval_days : Int)
    (st : List Partition) : List Partition :=
  ctpGo current_date interval_days 0 6 st

/-- maintain_partitions from db/schema.py: read the largest
PARTITION_DESCRIPTION among dated partitions; when none exist, seed via
create_time_partitions; when the most recent end date is less than
3 * interval_days ahead of today, append one more interval-day
partition starting at that end date, after the existence check. -/
def maintain_partitions (current_date interval_days : Int)
    (st : List Partition) : List Partition :=
  match (st.map Partition.endDay).max? with
  | none => create_time_partitions current_date interval_days st
  | some last_partition_date =>
    let days_ahead := last_partition_date - current_date
    if days_ahead < interval_days * 3 then
      let new_partition_start := last_partition_date
      let new_partition_end := new_partition_start + interval_days
      if partition_exists st new_partition_start then st
      else st ++ [⟨new_partition_start, new_partition_end⟩]
    else st

/-! Helper lemmas shared by the claim theorems. -/

/-- Definitional unfolding of snmp_get on a completed command. -/
theorem snmp_get_ok_def (rc : Int) (out : String) :
    snmp_get (.ok rc out)
      = if rc ≠ 0 then none
        else if (containsSub "No Such Object".toList (stripChars out.toList)
            || containsSub "No Such Instance".toList (stripChars out.toList)) = true then none
        else match searchAfterEq (stripChars out.toList) with
          | some cap => some (parse_snmp_value (pyStrip (String.mk cap)))
          | none => some (PyValue.str (String.mk (stripChars out.toList))) := rfl

/-- A left fold that appends the image of each element extends the
accumulator by the mapped list. -/
theorem foldl_append_map {α β : Type} (f : α → β) :
    ∀ (l : List α) (init : List β),
      l.foldl (fun acc p => acc ++ [f p]) init = init ++ l.map f := by
  intro l
  induction l with
  | nil => intro init; simp
  | cons x xs ih => intro init; simp [ih]

/-- Orchestrator fold invariant: the success counter plus the failure
list length grows by exactly the number of processed addresses. -/
theorem pollFold_sum (poll : String → Bool) :
    ∀ (ips : List String) (n : Nat) (l : List String),
      (ips.foldl (pollStep poll) (n, l)).1 + ((ips.foldl (pollStep poll) (n, l)).2).length
        = n + l.length + ips.length := by
  intro ips
  induction ips with
  | nil => intro n l; simp
  | cons x xs ih =>
    intro n l
    simp only [List.foldl_cons]
    by_cases h : poll x
    · rw [show pollStep poll (n, l) x = (n + 1, l) by simp [pollStep, h]]
      rw [ih]
      simp
      omega
    · rw [show pollStep poll (n, l) x = (n, l ++ [x]) by simp [pollStep, h]]
      rw [ih]
      simp
      omega

/-- Orchestrator fold invariant: an address in the final failure list
was in the initial one or failed its poll. -/
theorem pollFold_mem (poll : String → Bool) :
    ∀ (ips : List String) (n : Nat) (l : List String) (ip : String),
      ip ∈ (ips.foldl (pollStep poll) (n, l)).2 → ip ∈ l ∨ poll ip = false := by
  intro ips
  induction ips with
  | nil => intro n l ip h; exact Or.inl (by simpa using h)
  | cons x xs ih =>
    intro n l ip h
    simp only [List.foldl_cons] at h
    by_cases hx : poll x
    · rw [show pollStep poll (n, l) x = (n + 1, l) by simp [pollStep, hx]] at h
      exact ih _ _ _ h
    · rw [show pollStep poll (n, l) x = (n, l ++ [x]) by simp [pollStep, hx]] at h
      rcases ih _ _ _ h with hmem | hpoll
      · rcases List.mem_append.mp hmem with h1 | h2
        · exact Or.inl h1
        · right
          have : ip = x := by simpa using h2
          rw [this]
          simpa using hx
      · exact Or.inr hpoll

/-- Accepted addresses are returned verbatim by the IPv4 validator. -/
theorem ip_address_ipv4_id : ∀ (s t : String), ip_address_ipv4 s = some t → t = s := by
  intro s t h
  unfold ip_address_ipv4 at h
  split at h
  · split at h
    · exact (Option.some.inj h).symm
    · cases h
  · cases h

/-- Reader fold invariant: the loop appends exactly the cleaned lines
that are non-blank and pass the address validation. -/
theorem readFold_spec :
    ∀ (lines : List String) (acc : List String),
      lines.foldl readStep acc
        = acc ++ (lines.map cleanLine).filter
            (fun l => if l = "" then false else (ip_address_ipv4 l).isSome) := by
  intro lines
  induction lines with
  | nil => intro acc; simp
  | cons x xs ih =>
    intro acc
    simp only [List.foldl_cons, List.map_cons, List.filter_cons]
    by_cases hb : cleanLine x = ""
    · rw [show readStep acc x = acc by simp [readStep, hb]]
      simp [hb, ih]
    · cases hip : ip_address_ipv4 (cleanLine x) with
      | none =>
        rw [show readStep acc x = acc by simp [readStep, hb, hip]]
        simp [hb, hip, ih]
      | some ip =>
        have hid : ip = cleanLine x := ip_address_ipv4_id _ _ hip
        rw [show readStep acc x = acc ++ [cleanLine x] by simp [readStep, hb, hip, hid]]
        simp [hb, hip, ih]

/-! The claim theorems. -/

/-- C1: for every list of device addresses given to process_routers,
the returned success count plus the returned failure count (the length
of the failure list) equals the number of addresses in the input list,
and no address whose poll succeeded is present in the failure list. -/
theorem c1_orchestrator_partition (poll : String → Bool) (router_ips : List String) :
    (process_routers poll router_ips).1 + (process_routers poll router_ips).2.length
      = router_ips.length
    ∧ ∀ ip : String, ¬(poll ip = true ∧ ip ∈ (process_routers poll router_ips).2) := by
  constructor
  · simpa using pollFold_sum poll router_ips 0 []
  · rintro ip ⟨hp, hmem⟩
    rcases pollFold_mem poll router_ips 0 [] ip hmem with h | h
    · simp at h
    · rw [hp] at h
      cases h

/-- C1 witness: a concrete two-device batch, one success and one
failure. -/
theorem c1_orchestrator_partition_witness :
    ((process_routers (fun ip => ip == "10.0.0.1") ["10.0.0.1", "10.0.0.2"]).1
        + (process_routers (fun ip => ip == "10.0.0.1") ["10.0.0.1", "10.0.0.2"]).2.length = 2)
    ∧ ¬((fun ip => ip == "10.0.0.1") "10.0.0.2" = true
        ∧ "10.0.0.2" ∈ (process_routers (fun ip => ip == "10.0.0.1") ["10.0.0.1", "10.0.0.2"]).2) :=
  ⟨(c1_orchestrator_partition (fun ip => ip == "10.0.0.1") ["10.0.0.1", "10.0.0.2"]).1,
   (c1_orchestrator_partition (fun ip => ip == "10.0.0.1") ["10.0.0.1", "10.0.0.2"]).2 "10.0.0.2"⟩

/-- C2: parse_snmp_value is total and deterministic, every input string
is mapped to exactly one value, and a raw response carrying the
no-such-object or no-such-instance marker is reported to the caller of
snmp_get as the explicit not-found signal None. -/
theorem c2_parser_total_deterministic :
    (∀ s : String, ∃! v : PyValue, parse_snmp_value s = v)
    ∧ (∀ (rc : Int) (out : String),
        (containsSub ("No Such Object".toList) (stripChars out.toList)
          || containsSub ("No Such Instance".toList) (stripChars out.toList)) = true →
        snmp_get (.ok rc out) = none) := by
  constructor
  · intro s
    exact ⟨parse_snmp_value s, rfl, fun v hv => hv.symm⟩
  · intro rc out h
    rw [snmp_get_ok_def]
    by_cases hrc : rc ≠ 0
    · rw [if_pos hrc]
    · rw [if_neg hrc, if_pos h]

/-- C2 witness: the not-found marker on a concrete response. -/
theorem c2_parser_total_deterministic_witness :
    ((containsSub ("No Such Object".toList) (stripChars ("No Such Object available".toList))
      || containsSub ("No Such Instance".toList) (stripChars ("No Such Object available".toList))) = true)
    ∧ snmp_get (.ok 0 "No Such Object available") = none :=
  ⟨by decide, c2_parser_total_deterministic.2 0 "No Such Object available" (by decide)⟩

/-- C3: evaluation at the failing input.  In db/interface_dao.py the
binding of datetime.time shadows the time module, so when the first
batch-insert attempt raises a transient store error the backoff call
raises AttributeError: save_interface_stats_batch performs no backoff,
no second or third attempt, and propagates AttributeError instead of
retrying; execute_with_retry in db/connection.py, by contrast, does
back off 0.5 * 2 ** 1 then 0.5 * 2 ** 2 seconds and re-raises the store
error once the three attempts are exhausted. -/
theorem c3_shadowed_backoff_bug :
    save_interface_stats_batch [("1", 1)]
        [{ ifIndex := some "1", ifAdminStatus := some 1, ifOperStatus := some 1,
           ifInOctets := some 10, ifOutOctets := some 20,
           ifHCInOctets := some 0, ifHCOutOctets := some 0 }]
        (fun _ => true) "2026-01-01 00:00:00"
      = (Except.error PyExc.attributeError, [])
    ∧ execute_with_retry (fun _ => true) = Except.error PyExc.dbError
    ∧ execute_with_retry (fun k => k == 0) = Except.ok (true, [1])
    ∧ execute_with_retry (fun k => k == 0 || k == 1) = Except.ok (true, [1, 2]) :=
  ⟨by decide, by decide, by decide, by decide⟩

/-- C6: a sample batch for a device whose interface mapping is empty is
rejected: the call returns False, commits no rows and raises nothing. -/
theorem c6_empty_mapping_rejected (interfaces_data : List StatsInput)
    (insertFails : Nat → Bool) (current_time : String) :
    save_interface_stats_batch [] interfaces_data insertFails current_time
      = (Except.ok false, []) := rfl

/-- C8: the protocol gateway never throws on device communication
failure: snmp_get returns None on an execution exception, a non-zero
return code or a not-found response, and snmp_walk returns the empty
mapping on an execution exception or a non-zero return code. -/
theorem c8_gateway_soft_failures :
    (snmp_get TransportResult.exc = none)
    ∧ (∀ (rc : Int) (out : String), rc ≠ 0 → snmp_get (.ok rc out) = none)
    ∧ (∀ out : String,
        (containsSub ("No Such Object".toList) (stripChars out.toList)
          || containsSub ("No Such Instance".toList) (stripChars out.toList)) = true →
        snmp_get (.ok 0 out) = none)
    ∧ (snmp_walk TransportResult.exc = [])
    ∧ (∀ (rc : Int) (out : String), rc ≠ 0 → snmp_walk (.ok rc out) = []) := by
  refine ⟨rfl, ?_, ?_, rfl, ?_⟩
  · intro rc out h
    simp [snmp_get, h]
  · intro out h
    rw [snmp_get_ok_def]
    rw [if_neg (by simp), if_pos h]
  · intro rc out h
    simp [snmp_walk, h]

/-- C8 witness: a failed command and a not-found response. -/
theorem c8_gateway_soft_failures_witness :
    ((1 : Int) ≠ 0 ∧ snmp_get (.ok 1 "boom") = none)
    ∧ snmp_walk (.ok 1 "boom") = []
    ∧ snmp_get (.ok 0 "No Such Instance currently exists") = none :=
  ⟨⟨by decide, c8_gateway_soft_failures.2.1 1 "boom" (by decide)⟩,
   c8_gateway_soft_failures.2.2.2.2 1 "boom" (by decide),
   c8_gateway_soft_failures.2.2.1 "No Such Instance currently exists" (by decide)⟩

/-- C9: read_router_ips returns exactly the lines that, after stripping
the inline hash comment and surrounding whitespace, are non-empty and
pass the address validation; and the spec scenario, a file with one
malformed line between two valid addresses yields exactly those two
addresses. -/
theorem c9_reader_exact_lines (lines : List String) :
    read_router_ips lines
      = (lines.map cleanLine).filter
          (fun l => if l = "" then false else (ip_address_ipv4 l).isSome)
    ∧ read_router_ips ["192.168.1.1", "10.0.0.256", "10.0.0.2 # core"]
        = ["192.168.1.1", "10.0.0.2"] :=
  ⟨by simpa using readFold_spec lines [], by decide⟩

/-- C10: get_device_info always returns the dictionary holding the
ip_address key and one key per sys-prefixed attribute, those being
exactly sysName, sysDescr, sysUpTime, sysLocation, sysContact and
sysObjectID; an attribute whose query returned no value is bound to the
sentinel Error retrieving value, and no binding is ever None. -/
theorem c10_device_info_total (snmpGetO : String → Option PyValue) (router_ip : String) :
    get_device_info snmpGetO router_ip
      = ("ip_address", some (.str router_ip))
        :: sys_attr_oids.map (fun p => (p.1, some ((snmpGetO p.2).getD (.str errorSentinel))))
    ∧ sys_attr_oids.map Prod.fst
      = ["sysName", "sysDescr", "sysUpTime", "sysLocation", "sysContact", "sysObjectID"]
    ∧ ∀ kv ∈ get_device_info snmpGetO router_ip, kv.2 ≠ none := by
  have h1 : get_device_info snmpGetO router_ip
      = ("ip_address", some (.str router_ip))
        :: sys_attr_oids.map (fun p => (p.1, some ((snmpGetO p.2).getD (.str errorSentinel)))) := by
    unfold get_device_info sys_attr_oids
    rw [foldl_append_map]
    simp
  refine ⟨h1, by decide, ?_⟩
  intro kv hkv
  rw [h1] at hkv
  rcases List.mem_cons.mp hkv with hhead | htail
  · rw [hhead]
    simp
  · rcases List.mem_map.mp htail with ⟨p, _, hp⟩
    rw [← hp]
    simp

/-- Reset handling keeps the inbound delta non-negative when the
current sample counters are non-negative. -/
theorem usedDeltaIn_nonneg (prev curr : StatSample)
    (h1 : 0 ≤ curr.ifInOctets) (h2 : 0 ≤ curr.ifHCInOctets) :
    0 ≤ usedDeltaIn prev curr := by
  unfold usedDeltaIn
  by_cases hr : rawDeltaIn prev curr < 0
  · rw [if_pos hr]
    by_cases hc : curr.ifHCInOctets ≠ 0
    · rw [if_pos hc]; exact h2
    · rw [if_neg hc]; exact h1
  · rw [if_neg hr]; exact not_lt.mp hr

/-- Reset handling keeps the outbound delta non-negative when the
current sample counters are non-negative. -/
theorem usedDeltaOut_nonneg (prev curr : StatSample)
    (h1 : 0 ≤ curr.ifOutOctets) (h2 : 0 ≤ curr.ifHCOutOctets) :
    0 ≤ usedDeltaOut prev curr := by
  unfold usedDeltaOut
  by_cases hr : rawDeltaOut prev curr < 0
  · rw [if_pos hr]
    by_cases hc : curr.ifHCOutOctets ≠ 0
    · rw [if_pos hc]; exact h2
    · rw [if_neg hc]; exact h1
  · rw [if_neg hr]; exact not_lt.mp hr

/-- The pair loop never produces a negative bits-per-second value when
every sample has non-negative counters. -/
theorem util_pairs_nonneg (speed_bps : Int) :
    ∀ stats : List StatSample,
      (∀ st ∈ stats, 0 ≤ st.ifInOctets ∧ 0 ≤ st.ifOutOctets
        ∧ 0 ≤ st.ifHCInOctets ∧ 0 ≤ st.ifHCOutOctets) →
      ∀ u ∈ util_pairs speed_bps stats, 0 ≤ u.in_bps ∧ 0 ≤ u.out_bps := by
  intro stats
  induction stats with
  | nil => intro _ u hu; cases hu
  | cons prev rest ih =>
    cases rest with
    | nil => intro _ u hu; cases hu
    | cons curr rest2 =>
      intro hcnt u hu
      rw [util_pairs] at hu
      rcases List.mem_append.mp hu with h1 | h2
      · by_cases htd : curr.timestamp - prev.timestamp ≤ 0
        · rw [if_pos htd] at h1; cases h1
        · rw [if_neg htd] at h1
          have hc := hcnt curr (by simp)
          have hu' := List.mem_singleton.mp h1
          subst hu'
          constructor
          · exact Rat.divInt_nonneg
              (mul_nonneg (usedDeltaIn_nonneg prev curr hc.1 hc.2.2.1) (by norm_num))
              (le_of_lt (by omega))
          · exact Rat.divInt_nonneg
              (mul_nonneg (usedDeltaOut_nonneg prev curr hc.2.1 hc.2.2.2) (by norm_num))
              (le_of_lt (by omega))
      · exact ih (fun s hs => hcnt s (List.mem_cons_of_mem _ hs)) u h2

/-- C5: for every adjacent sample pair whose computed octet delta is
negative, the calculator substitutes the raw current-sample counter
(the wide one when non-zero, else the standard one) as the delta, and
over samples whose counters are non-negative, as unsigned device
counters are, it never produces a negative bits-per-second value. -/
theorem c5_reset_substitution_nonneg (ifHighSpeed ifSpeed : Int) (stats : List StatSample)
    (hcnt : ∀ st ∈ stats, 0 ≤ st.ifInOctets ∧ 0 ≤ st.ifOutOctets
      ∧ 0 ≤ st.ifHCInOctets ∧ 0 ≤ st.ifHCOutOctets) :
    (∀ prev curr : StatSample, rawDeltaIn prev curr < 0 →
        usedDeltaIn prev curr
          = (if curr.ifHCInOctets ≠ 0 then curr.ifHCInOctets else curr.ifInOctets))
    ∧ (∀ prev curr : StatSample, rawDeltaOut prev curr < 0 →
        usedDeltaOut prev curr
          = (if curr.ifHCOutOctets ≠ 0 then curr.ifHCOutOctets else curr.ifOutOctets))
    ∧ ∀ u ∈ calculate_interface_utilization ifHighSpeed ifSpeed stats,
        0 ≤ u.in_bps ∧ 0 ≤ u.out_bps := by
  refine ⟨?_, ?_, ?_⟩
  · intro prev curr h; rw [usedDeltaIn, if_pos h]
  · intro prev curr h; rw [usedDeltaOut, if_pos h]
  · intro u hu
    simp only [calculate_interface_utilization] at hu
    by_cases hs0 : (if ifHighSpeed = 0 then ifSpeed else ifHighSpeed) = 0
    · rw [if_pos hs0] at hu; cases hu
    · rw [if_neg hs0] at hu
      by_cases hlen : stats.length < 2
      · rw [if_pos hlen] at hu; cases hu
      · rw [if_neg hlen] at hu
        exact util_pairs_nonneg _ stats hcnt u hu

/-- C5 witness: two samples with a wide-counter reset in between; the
substituted delta yields a non-negative rate. -/
theorem c5_reset_substitution_nonneg_witness :
    (∀ st ∈ ([⟨0, 1, 1, 100, 100, 1000000, 1000⟩,
              ⟨60, 1, 1, 50, 150, 200, 900⟩] : List StatSample),
        0 ≤ st.ifInOctets ∧ 0 ≤ st.ifOutOctets
          ∧ 0 ≤ st.ifHCInOctets ∧ 0 ≤ st.ifHCOutOctets)
    ∧ ∀ u ∈ calculate_interface_utilization 100 0
        ([⟨0, 1, 1, 100, 100, 1000000, 1000⟩,
          ⟨60, 1, 1, 50, 150, 200, 900⟩] : List StatSample),
        0 ≤ u.in_bps ∧ 0 ≤ u.out_bps :=
  ⟨by decide,
   (c5_reset_substitution_nonneg 100 0
      ([⟨0, 1, 1, 100, 100, 1000000, 1000⟩,
        ⟨60, 1, 1, 50, 150, 200, 900⟩] : List StatSample) (by decide)).2.2⟩

/-- A type table with no infinite float values and no value whose int()
image is in the allow-list makes the monitored-indices loop return the
empty list without an exception. -/
theorem monitored_fold_ok_nil (allowName : Int → Option String) :
    ∀ tbl : List (String × PyValue),
      (∀ p ∈ tbl, ∀ b, p.2 ≠ PyValue.floatInf b) →
      (∀ p ∈ tbl, ∀ t, int_of_pyvalue p.2 = .ok t → allowName t = none) →
      monitored_indices_fold allowName tbl = .ok [] := by
  intro tbl
  induction tbl with
  | nil => intro _ _; rfl
  | cons p rest ih =>
    intro hinf hzero
    have ihr := ih (fun q hq => hinf q (List.mem_cons_of_mem _ hq))
      (fun q hq => hzero q (List.mem_cons_of_mem _ hq))
    obtain ⟨idx, v⟩ := p
    cases hv : int_of_pyvalue v with
    | ok t =>
      have hz : allowName t = none := hzero (idx, v) (by simp) t hv
      simp only [monitored_indices_fold, hv, ihr]
      simp [hz, Except.map]
    | error e =>
      cases v with
      | floatInf b => exact absurd rfl (hinf (idx, .floatInf b) (by simp) b)
      | str s =>
        have he2 : e = PyExc.valueError := by
          simp only [int_of_pyvalue] at hv
          cases hs : pyIntOfString s <;> rw [hs] at hv <;> simp_all
        subst he2
        simpa only [monitored_indices_fold, hv] using ihr
      | floatNan =>
        have he2 : e = PyExc.valueError := by
          simp only [int_of_pyvalue] at hv
          simp_all
        subst he2
        simpa only [monitored_indices_fold, hv] using ihr
      | int n => simp [int_of_pyvalue] at hv
      | float q => simp [int_of_pyvalue] at hv

/-- C7 amended: for every device whose type-code walk fails or yields
zero indices in the allow-list, and whose type values include no
infinite float, get_monitored_interfaces returns the empty mapping
having walked only the type-code table: no per-attribute walk and no
IP-address merge happens.  (With an infinite float among the type
values, int() raises OverflowError, which the handler catching only
ValueError and TypeError lets propagate: see the counterexample.) -/
theorem c7_empty_soft_failure (walkO : String → List (String × PyValue))
    (allowName : Int → Option String)
    (hinf : ∀ p ∈ walkO (oid_of "ifType"), ∀ b, p.2 ≠ PyValue.floatInf b)
    (hzero : ∀ p ∈ walkO (oid_of "ifType"), ∀ t,
      int_of_pyvalue p.2 = .ok t → allowName t = none) :
    get_monitored_interfaces walkO allowName = ([oid_of "ifType"], Except.ok []) := by
  unfold get_monitored_interfaces
  by_cases he : (walkO (oid_of "ifType")).isEmpty
  · simp only [he, if_pos]
  · simp only [he]
    rw [if_neg (by simp [he])]
    rw [monitored_fold_ok_nil allowName _ hinf hzero]
    simp

/-- C7 amended witness: one non-monitored integer type code. -/
theorem c7_empty_soft_failure_witness :
    (∀ p ∈ (fun oid =>
        if oid == oid_of "ifType" then [("1", PyValue.int 99)] else ([] : List (String × PyValue)))
        (oid_of "ifType"), ∀ b, p.2 ≠ PyValue.floatInf b)
    ∧ get_monitored_interfaces
        (fun oid =>
          if oid == oid_of "ifType" then [("1", PyValue.int 99)] else [])
        (fun _ => none)
      = ([oid_of "ifType"], Except.ok []) :=
  ⟨by decide,
   c7_empty_soft_failure
     (fun oid => if oid == oid_of "ifType" then [("1", PyValue.int 99)] else [])
     (fun _ => none) (by decide) (fun _ _ _ _ => rfl)⟩

/-- The type-code walk of the C7 counterexample: one entry whose raw
value inf parses to the float infinity. -/
def c7walkO : String → List (String × PyValue) :=
  fun oid => if oid == oid_of "ifType" then [("1", PyValue.floatInf false)] else []

/-- The allow-list of the C7 counterexample: ethernet only. -/
def c7allowName : Int → Option String :=
  fun t => if t == 6 then some "ethernetCsmacd" else none

/-- C7 counterexample: a device whose type-code walk yields a single
entry parsing to the float infinity.  int() of every entry fails, so
the walk yields zero indices in the allow-list, yet the function does
not return an empty mapping: int() raises OverflowError in the
monitored-indices loop, the except clause catching only ValueError and
TypeError does not intercept it, and the exception propagates. -/
theorem c7_counterexample :
    parse_snmp_value "inf" = PyValue.floatInf false
    ∧ (∀ p ∈ c7walkO (oid_of "ifType"),
        int_of_pyvalue p.2 = Except.error PyExc.overflowError)
    ∧ (get_monitored_interfaces c7walkO c7allowName).1 = [oid_of "ifType"]
    ∧ (get_monitored_interfaces c7walkO c7allowName).2 = Except.error PyExc.overflowError :=
  ⟨by decide, by decide, by decide, by decide⟩

/-- max on the integers picks one of its arguments. -/
theorem int_max_or (a b : Int) : max a b = a ∨ max a b = b := by
  rcases le_total a b with h | h
  · right; exact max_eq_right h
  · left; exact max_eq_left h

/-- Characterisation of List.max? over the integers. -/
theorem int_max?_eq_some_iff {xs : List Int} {a : Int} :
    xs.max? = some a ↔ a ∈ xs ∧ ∀ b ∈ xs, b ≤ a := by
  haveI : Std.Antisymm (fun x1 x2 : Int => x1 ≤ x2) := ⟨fun h1 h2 => le_antisymm h1 h2⟩
  exact List.max?_eq_some_iff (fun a => le_refl a) int_max_or (fun a b c => max_le_iff)

/-- Appending a dominating element pins the maximum. -/
theorem max?_append_big {l : List Int} {x : Int} (h : ∀ b ∈ l, b ≤ x) :
    (l ++ [x]).max? = some x := by
  rw [int_max?_eq_some_iff]
  refine ⟨by simp, ?_⟩
  intro b hb
  rcases List.mem_append.mp hb with h1 | h2
  · exact h b h1
  · exact le_of_eq (List.mem_singleton.mp h2)

/-- The existence check fails when no stored partition has the
candidate name. -/
theorem partition_exists_false {st : List Partition} {s : Int}
    (h : ∀ p ∈ st, p.startDay ≠ s) : partition_exists st s = false := by
  simp only [partition_exists, List.any_eq_false]
  intro p hp
  simpa using h p hp

/-- Invariants of the seeding loop: starting from a well-formed state
whose end days lie at or before the window indexed i, the loop keeps
names unique and ranges well-formed, bounds all end days by the last
window, and (when it adds at least one window) ends exactly at the last
window. -/
theorem ctpGo_spec (current_date interval_days : Int) (hI : 0 < interval_days) :
    ∀ (k i : Nat) (st : List Partition),
      (∀ p ∈ st, p.endDay ≤ current_date + (i : Int) * interval_days) →
      (∀ p ∈ st, p.startDay < p.endDay) →
      ((st.map Partition.startDay).Nodup) →
      (((ctpGo current_date interval_days i k st).map Partition.startDay).Nodup
      ∧ (∀ p ∈ ctpGo current_date interval_days i k st, p.startDay < p.endDay)
      ∧ (∀ p ∈ ctpGo current_date interval_days i k st,
          p.endDay ≤ current_date + ((i + k : Nat) : Int) * interval_days)
      ∧ (0 < k → ∃ p ∈ ctpGo current_date interval_days i k st,
          p.endDay = current_date + ((i + k : Nat) : Int) * interval_days)) := by
  intro k
  induction k with
  | zero =>
    intro i st hend hwf hnd
    refine ⟨hnd, hwf, ?_, by omega⟩
    simpa using hend
  | succ k ih =>
    intro i st hend hwf hnd
    have hltS : ∀ p ∈ st, p.startDay < current_date + (i : Int) * interval_days :=
      fun p hp => lt_of_lt_of_le (hwf p hp) (hend p hp)
    have hne : partition_exists st (current_date + (i : Int) * interval_days) = false :=
      partition_exists_false (fun p hp => ne_of_lt (hltS p hp))
    have hcast : ((i + 1 : Nat) : Int) * interval_days
        = (i : Int) * interval_days + interval_days := by
      push_cast
      ring
    have hstep : ctpGo current_date interval_days i (k + 1) st
        = ctpGo current_date interval_days (i + 1) k
            (st ++ [⟨current_date + (i : Int) * interval_days,
                     current_date + ((i + 1 : Nat) : Int) * interval_days⟩]) := by
      simp only [ctpGo, hne]
      simp
    have hend2 : ∀ p ∈ st ++ [⟨current_date + (i : Int) * interval_days,
        current_date + ((i + 1 : Nat) : Int) * interval_days⟩],
        p.endDay ≤ current_date + ((i + 1 : Nat) : Int) * interval_days := by
      intro p hp
      rcases List.mem_append.mp hp with h1 | h2
      · have := hend p h1
        rw [hcast]
        linarith
      · rw [List.mem_singleton.mp h2]
    have hwf2 : ∀ p ∈ st ++ [⟨current_date + (i : Int) * interval_days,
        current_date + ((i + 1 : Nat) : Int) * interval_days⟩],
        p.startDay < p.endDay := by
      intro p hp
      rcases List.mem_append.mp hp with h1 | h2
      · exact hwf p h1
      · rw [List.mem_singleton.mp h2]
        show current_date + (i : Int) * interval_days
            < current_date + ((i + 1 : Nat) : Int) * interval_days
        rw [hcast]
        linarith
    have hnd2 : (((st ++ [(⟨current_date + (i : Int) * interval_days,
        current_date + ((i + 1 : Nat) : Int) * interval_days⟩ : Partition)]).map
          Partition.startDay)).Nodup := by
      rw [List.map_append, List.nodup_append]
      refine ⟨hnd, by simp, ?_⟩
      intro a ha hb
      rcases List.mem_map.mp ha with ⟨p, hp, hps⟩
      have hbs : a = current_date + (i : Int) * interval_days := by simpa using hb
      exact absurd (hps.trans hbs) (ne_of_lt (hltS p hp))
    have ihr := ih (i + 1) _ hend2 hwf2 hnd2
    have hidx : (i + 1) + k = i + (k + 1) := by omega
    rw [hstep]
    rw [hidx] at ihr
    refine ⟨ihr.1, ihr.2.1, ihr.2.2.1, fun _ => ?_⟩
    cases Nat.eq_zero_or_pos k with
    | inl hk0 =>
      subst hk0
      refine ⟨⟨current_date + (i : Int) * interval_days,
              current_date + ((i + 1 : Nat) : Int) * interval_days⟩, ?_, ?_⟩
      · show _ ∈ ctpGo current_date interval_days (i + 1) 0
          (st ++ [⟨current_date + (i : Int) * interval_days,
                   current_date + ((i + 1 : Nat) : Int) * interval_days⟩])
        simp [ctpGo]
      · norm_num
    | inr hkpos => exact ihr.2.2.2 hkpos

/-- maintain_partitions on an empty dated-partition state seeds via the
creation loop. -/
theorem maintain_empty (current_date interval_days : Int) :
    maintain_partitions current_date interval_days [] = ctpGo current_date interval_days 0 6 [] :=
  rfl

/-- maintain_partitions leaves the state alone when the most recent end
date is at least 3 intervals ahead. -/
theorem maintain_big (current_date interval_days : Int) (st : List Partition) (M : Int)
    (hmax : (st.map Partition.endDay).max? = some M)
    (hbig : ¬(M - current_date < interval_days * 3)) :
    maintain_partitions current_date interval_days st = st := by
  simp [maintain_partitions, hmax, hbig]

/-- maintain_partitions appends exactly one interval when the most
recent end date is less than 3 intervals ahead and the name is free. -/
theorem maintain_small (current_date interval_days : Int) (st : List Partition) (M : Int)
    (hmax : (st.map Partition.endDay).max? = some M)
    (hsmall : M - current_date < interval_days * 3)
    (hne : partition_exists st M = false) :
    maintain_partitions current_date interval_days st
      = st ++ [⟨M, M + interval_days⟩] := by
  simp [maintain_partitions, hmax, hsmall, hne]

/-- One maintenance run on a non-empty well-formed state: either the
coverage was already 3 intervals and nothing changes, or exactly one
interval is appended and the structural invariants carry over. -/
theorem maintain_one_step (current_date interval_days : Int) (hI : 0 < interval_days)
    (st : List Partition) (M : Int)
    (hwf : ∀ p ∈ st, p.startDay < p.endDay)
    (hnd : (st.map Partition.startDay).Nodup)
    (hmax : (st.map Partition.endDay).max? = some M) :
    (¬(M - current_date < interval_days * 3)
      ∧ maintain_partitions current_date interval_days st = st)
    ∨ ((M - current_date < interval_days * 3)
      ∧ maintain_partitions current_date interval_days st
          = st ++ [⟨M, M + interval_days⟩]
      ∧ ((st ++ [(⟨M, M + interval_days⟩ : Partition)]).map Partition.endDay).max?
          = some (M + interval_days)
      ∧ (∀ p ∈ st ++ [(⟨M, M + interval_days⟩ : Partition)], p.startDay < p.endDay)
      ∧ (((st ++ [(⟨M, M + interval_days⟩ : Partition)]).map Partition.startDay)).Nodup) := by
  have hMle : ∀ p ∈ st, p.endDay ≤ M := by
    intro p hp
    exact (int_max?_eq_some_iff.mp hmax).2 _ (List.mem_map_of_mem _ hp)
  have hltM : ∀ p ∈ st, p.startDay < M :=
    fun p hp => lt_of_lt_of_le (hwf p hp) (hMle p hp)
  by_cases hcov : M - current_date < interval_days * 3
  · right
    have hne : partition_exists st M = false :=
      partition_exists_false (fun p hp => ne_of_lt (hltM p hp))
    refine ⟨hcov, maintain_small current_date interval_days st M hmax hcov hne, ?_, ?_, ?_⟩
    · rw [List.map_append]
      exact max?_append_big (by
        intro b hb
        rcases List.mem_map.mp hb with ⟨p, hp, hps⟩
        rw [← hps]
        show p.endDay ≤ M + interval_days
        linarith [hMle p hp])
    · intro p hp
      rcases List.mem_append.mp hp with h1 | h2
      · exact hwf p h1
      · rw [List.mem_singleton.mp h2]
        show M < M + interval_days
        omega
    · rw [List.map_append, List.nodup_append]
      refine ⟨hnd, by simp, ?_⟩
      intro a ha hb
      rcases List.mem_map.mp ha with ⟨p, hp, hps⟩
      have hbs : a = M := by simpa using hb
      exact absurd (hps.trans hbs) (ne_of_lt (hltM p hp))
  · exact Or.inl ⟨hcov, maintain_big current_date interval_days st M hmax hcov⟩

/-- C4 counterexample: state with a single dated partition ending
today, interval 7 days, today as day 0.  Two maintenance runs append
one 7-day partition each; no duplicate name is created, but the
resulting partitions reach only 14 days ahead, short of the
3 x interval = 21 days the claim asserts. -/
theorem c4_counterexample :
    maintain_partitions 0 7 (maintain_partitions 0 7 [⟨-7, 0⟩])
      = [⟨-7, 0⟩, ⟨0, 7⟩, ⟨7, 14⟩]
    ∧ ((maintain_partitions 0 7 (maintain_partitions 0 7 [⟨-7, 0⟩])).map
        Partition.startDay).Nodup
    ∧ ∀ p ∈ maintain_partitions 0 7 (maintain_partitions 0 7 [⟨-7, 0⟩]),
        p.endDay - 0 < 7 * 3 :=
  ⟨by decide, by decide, by decide⟩

/-- C4 amended: two maintenance runs on the same well-formed state
never create two partitions with the same name and keep ranges
well-formed; and the dated partitions cover at least 3 x interval days
into the future from today provided the state either held no dated
partition (seeding then covers 6 intervals) or already covered at least
one interval into the future.  (Starting from staler coverage each run
adds only one interval, which two runs cannot bring to 3 x interval:
see the counterexample.) -/
theorem c4_maintainer_idempotent_coverage (current_date interval_days : Int)
    (st : List Partition) (hI : 0 < interval_days)
    (hwf : ∀ p ∈ st, p.startDay < p.endDay)
    (hnd : (st.map Partition.startDay).Nodup) :
    (((maintain_partitions current_date interval_days
        (maintain_partitions current_date interval_days st)).map Partition.startDay).Nodup
    ∧ (∀ p ∈ maintain_partitions current_date interval_days
          (maintain_partitions current_date interval_days st), p.startDay < p.endDay)
    ∧ ((st = [] ∨ ∃ p ∈ st, interval_days ≤ p.endDay - current_date) →
        ∃ p ∈ maintain_partitions current_date interval_days
            (maintain_partitions current_date interval_days st),
          interval_days * 3 ≤ p.endDay - current_date)) := by
  rcases eq_or_ne st [] with hempty | hnonempty
  · -- seed case
    subst hempty
    rw [maintain_empty]
    have hseed := ctpGo_spec current_date interval_days hI 6 0 []
      (by simp) (by simp) (by simp)
    obtain ⟨hnd1, hwf1, hbound1, hex1⟩ := hseed
    obtain ⟨ptop, hptop, hptopend⟩ := hex1 (by omega)
    have htopval : ((0 + 6 : Nat) : Int) * interval_days = 6 * interval_days := by
      push_cast
      ring
    have hmax1 : ((ctpGo current_date interval_days 0 6 []).map Partition.endDay).max?
        = some (current_date + 6 * interval_days) := by
      rw [int_max?_eq_some_iff]
      constructor
      · rw [← htopval, ← hptopend]
        exact List.mem_map_of_mem _ hptop
      · intro b hb
        rcases List.mem_map.mp hb with ⟨p, hp, hps⟩
        rw [← hps]
        have := hbound1 p hp
        rw [htopval] at this
        exact this
    have hbig : ¬(current_date + 6 * interval_days - current_date < interval_days * 3) := by
      omega
    rw [maintain_big current_date interval_days _ _ hmax1 hbig]
    refine ⟨hnd1, hwf1, fun _ => ?_⟩
    refine ⟨ptop, hptop, ?_⟩
    rw [hptopend, htopval]
    omega
  · -- non-empty case
    obtain ⟨M, hmax⟩ : ∃ M, (st.map Partition.endDay).max? = some M := by
      cases hM : (st.map Partition.endDay).max? with
      | none =>
        exact absurd (List.map_eq_nil_iff.mp (List.max?_eq_none_iff.mp hM)) hnonempty
      | some M => exact ⟨M, rfl⟩
    have hMmem : ∃ p ∈ st, p.endDay = M := by
      rcases List.mem_map.mp (int_max?_eq_some_iff.mp hmax).1 with ⟨p, hp, hps⟩
      exact ⟨p, hp, hps⟩
    rcases maintain_one_step current_date interval_days hI st M hwf hnd hmax with
      ⟨hbig, heq⟩ | ⟨hsmall, heq, hmax1, hwf1, hnd1⟩
    · -- already covered: both runs leave the state alone
      rw [heq, heq]
      refine ⟨hnd, hwf, fun _ => ?_⟩
      obtain ⟨p, hp, hpe⟩ := hMmem
      exact ⟨p, hp, by omega⟩
    · -- first run appended one interval
      rw [heq]
      rcases maintain_one_step current_date interval_days hI _ (M + interval_days)
          hwf1 hnd1 hmax1 with
        ⟨hbig2, heq2⟩ | ⟨hsmall2, heq2, _, hwf2, hnd2⟩
      · rw [heq2]
        refine ⟨hnd1, hwf1, fun _ => ?_⟩
        refine ⟨⟨M, M + interval_days⟩, by simp, ?_⟩
        show interval_days * 3 ≤ M + interval_days - current_date
        omega
      · rw [heq2]
        refine ⟨hnd2, hwf2, ?_⟩
        rintro (h | ⟨p, hp, hpcov⟩)
        · exact absurd h hnonempty
        · have hpM : p.endDay ≤ M := (int_max?_eq_some_iff.mp hmax).2 _
            (List.mem_map_of_mem _ hp)
          refine ⟨⟨M + interval_days, M + interval_days + interval_days⟩, by simp, ?_⟩
          show interval_days * 3 ≤ M + interval_days + interval_days - current_date
          omega

/-- C4 amended witness: seeding from no dated partitions with a 7-day
interval. -/
theorem c4_maintainer_idempotent_coverage_witness :
    (0 : Int) < 7
    ∧ ∃ p ∈ maintain_partitions 0 7 (maintain_partitions 0 7 ([] : List Partition)),
        (7 : Int) * 3 ≤ p.endDay - 0 :=
  ⟨by decide,
   (c4_maintainer_idempotent_coverage 0 7 [] (by decide) (by decide) (by decide)).2.2
     (Or.inl rfl)⟩

end RouterMonitor
